import Mathlib

/-!
# Verification of the `asset-metadata-default` field renderer

Shallow embedding of the convergence / apply-decision logic of
`src/universal-editor-ui-1/web-src/src/components/AssetMetadataDefaultField.js`.

Conventions used throughout this development:

* JavaScript strings are Lean `String`s; a JS `null`/`undefined` string-valued
  variable is modelled as `Option String` where the distinction matters
  (e.g. the `lastSeenAssetRef` / `lastAppliedAssetRef` refs start as `null`),
  and as `""` where the source only ever tests truthiness.
* JSON documents are modelled by the inductive `JVal`.  JS property-name
  insertion order is the order of the association list inside `JVal.jobj`.
* Network calls are modelled by oracle inputs of type `Except String _`:
  `.error e` models a fetch that throws (CORS/transport failure or a
  non-success HTTP status, both of which the source raises as `Error`s),
  `.ok v` models a successful response body.
* Every observable action of one evaluation cycle is recorded in a list of
  `Effect`s (editor-state read, each network fetch, each `onChange` write),
  so "performs no write / no fetch" claims are statements about that list.
-/

namespace UEMeta

/-! ## Kernel-computable string primitives

The JS string operations the source relies on (`trim`, `split`,
`toLowerCase`, `startsWith`, `endsWith`, single-character `replace`) are
defined here over character lists so that every definition in this file
evaluates by kernel reduction. -/

/-- JS `toLowerCase` (the strings involved are ASCII). -/
def jsToLower (s : String) : String := String.mk (s.data.map Char.toLower)

/-- `s.startsWith(p)`. -/
def strStartsWith (s p : String) : Bool := p.data.isPrefixOf s.data

/-- `s.endsWith(p)`. -/
def strEndsWith (s p : String) : Bool := p.data.isSuffixOf s.data

/-- Split a character list at every occurrence of `c` (JS
`String.prototype.split` with a single-character separator). -/
def splitOnChar (c : Char) : List Char → List (List Char)
  | [] => [[]]
  | x :: rest =>
      match splitOnChar c rest with
      | [] => if x = c then [[], []] else [[x]]
      | h :: t => if x = c then [] :: h :: t else (x :: h) :: t

/-- JS `s.split(c)` for a single-character separator. -/
def splitStr (s : String) (c : Char) : List String :=
  (splitOnChar c s.data).map String.mk

/-- Whitespace removed by JS `trim` (the whitespace that actually occurs in
the data handled by this component). -/
def isJsSpace (c : Char) : Bool :=
  c = ' ' || c = '\t' || c = '\n' || c = '\r'

/-- JS `String.prototype.trim`. -/
def jsTrim (s : String) : String :=
  String.mk (((s.data.dropWhile isJsSpace).reverse.dropWhile isJsSpace).reverse)

/-- Join strings with a separator (JS `Array.prototype.join`). -/
def joinWith (sep : String) (l : List String) : String :=
  String.mk (List.intercalate sep.data (l.map String.data))

/-! ## JSON values (documents returned by the metadata endpoints) -/

/-- A JSON value.  Numbers are modelled as integers (the metadata documents
exercised by the specification only contain strings, lists and objects). -/
inductive JVal where
  | jstr (s : String)
  | jnum (n : Int)
  | jbool (b : Bool)
  | jnull
  | jarr (xs : List JVal)
  | jobj (fields : List (String × JVal))

/-- JS truthiness of a `JVal` (`Boolean(v)`). -/
def jsTruthy : JVal → Bool
  | .jstr s => s ≠ ""
  | .jnum n => n ≠ 0
  | .jbool b => b
  | .jnull => false
  | .jarr _ => true
  | .jobj _ => true

/-- `v && typeof v === "object"`: a truthy object-like value (objects and
arrays; `null` is excluded by truthiness). -/
def jsIsObjectLike : JVal → Bool
  | .jobj _ => true
  | .jarr _ => true
  | _ => false

/-- Property access `src[k]` on an object-like value; `none` models
`undefined`.  Array indexing is modelled for canonical decimal indices. -/
def getProp : JVal → String → Option JVal
  | .jobj fields, k => fields.lookup k
  | .jarr xs, k =>
      (List.range xs.length).findSome? fun i =>
        if Nat.repr i = k then xs.get? i else none
  | _, _ => none

/-- `Object.keys(src)` for an object-like value. -/
def keysOf : JVal → List String
  | .jobj fields => fields.map Prod.fst
  | .jarr xs => (List.range xs.length).map Nat.repr
  | _ => []

/-- JS `String(v)` for the values reachable in this code base
(`null`/`undefined` are always filtered out before `String(v)` is applied). -/
def jsStringOf : JVal → String
  | .jstr s => s
  | .jnum n => toString n
  | .jbool b => if b then "true" else "false"
  | .jnull => "null"
  | .jarr xs => joinWith "," (xs.map fun x =>
      match x with
      | .jnull => ""
      | .jstr s => s
      | .jnum n => toString n
      | .jbool b => if b then "true" else "false"
      | _ => "")
  | .jobj _ => "[object Object]"

/-! ## Pure string helpers (translated from the source, top of the file) -/

/-- `basename` (source lines 179–183): last path segment of a URL/path with
the query string stripped; `split("/").filter(Boolean)` drops empty
segments. -/
def basename (s : String) : String :=
  let v := (splitStr s '?').headD ""
  let parts := (splitStr v '/').filter (fun p => p ≠ "")
  parts.getLastD ""

/-- `tryExtractDamPath` helper: first suffix of `cs` that starts with
`needle`, scanning left to right (JS `indexOf`). -/
def findTail (needle : List Char) : List Char → Option (List Char)
  | [] => if needle.isPrefixOf ([] : List Char) then some [] else none
  | c :: rest =>
      if needle.isPrefixOf (c :: rest) then some (c :: rest)
      else findTail needle rest

/-- `tryExtractDamPath` (source lines 163–171): extract a `/content/dam/...`
path from an arbitrary string, trimming and stripping the query string. -/
def tryExtractDamPath (value : String) : String :=
  match findTail "/content/dam/".data value.data with
  | some tail => (splitStr (jsTrim (String.mk tail)) '?').headD ""
  | none => ""

/-- Character class `[0-9a-f-]` with the `i` flag, used by the asset-URN
regular expression. -/
def isUrnTailChar (c : Char) : Bool :=
  let l := c.toLower
  (decide ('0' ≤ l) && decide (l ≤ '9')) ||
    (decide ('a' ≤ l) && decide (l ≤ 'f')) || decide (l = '-')

/-- One attempted match of `/urn:aaid:aem:[0-9a-f-]+/i` at the head of the
character list: the literal prefix case-insensitively, then a non-empty
maximal run of tail characters. -/
def matchUrnAt (cs : List Char) : Option (List Char) :=
  if (cs.take 13).map Char.toLower = "urn:aaid:aem:".data then
    let run := (cs.drop 13).takeWhile isUrnTailChar
    if run = [] then none else some (cs.take 13 ++ run)
  else none

/-- Leftmost match of `/urn:aaid:aem:[0-9a-f-]+/i` (JS regex scanning). -/
def scanUrn : List Char → Option (List Char)
  | [] => none
  | c :: rest =>
      match matchUrnAt (c :: rest) with
      | some m => some m
      | none => scanUrn rest

/-- `tryExtractAssetUrn` (source lines 192–196). -/
def tryExtractAssetUrn (s : String) : String :=
  match scanUrn s.data with
  | some m => String.mk m
  | none => ""

/-- Authority part of an URL: everything up to the first `/`, `?` or `#`. -/
def takeAuthority (s : String) : String :=
  String.mk (s.data.takeWhile fun c => c ≠ '/' ∧ c ≠ '?' ∧ c ≠ '#')

/-- `tryExtractOrigin` (source lines 203–210).  The browser's `new URL`
builtin is modelled for the http(s) case: an absolute http(s) URL yields
`scheme://host` (lower-cased), anything else throws and yields `""` via the
source's `catch` branch.  (Userinfo/default-port normalisation of the real
URL parser is not exercised by this code base.) -/
def tryExtractOrigin (s : String) : String :=
  if strStartsWith (jsToLower s) "https://" then
    let auth := takeAuthority (String.mk (s.data.drop 8))
    if auth = "" then "" else "https://" ++ jsToLower auth
  else if strStartsWith (jsToLower s) "http://" then
    let auth := takeAuthority (String.mk (s.data.drop 7))
    if auth = "" then "" else "http://" ++ jsToLower auth
  else ""

/-- `normalizeAssetSignature` (source lines 217–226). -/
def normalizeAssetSignature (assetValue : String) : String :=
  let s := jsTrim assetValue
  if s = "" then ""
  else if strStartsWith s "/adobe/dynamicmedia/deliver/" then
    (splitStr s '?').headD ""
  else s

/-! ## Host base-URL resolution (`pickAemConnection`, source lines 76–88) -/

/-- Character class `[a-z0-9+.-]` with the `i` flag (scheme characters after
the first). -/
def isSchemeChar (c : Char) : Bool :=
  c.isAlpha || c.isDigit || decide (c = '+') || decide (c = '.') || decide (c = '-')

/-- `/^https?:\/\//i`: the value is a bare http(s) URL. -/
def startsWithHttpUrl (v : String) : Bool :=
  strStartsWith (jsToLower v) "http://" || strStartsWith (jsToLower v) "https://"

/-- `/^[a-z][a-z0-9+.-]*:https?:\/\//i`: a scheme-prefixed URL such as
`aem:https://author.example.com`.  Since `:` is not a scheme character the
scheme necessarily ends at the first colon. -/
def matchesSchemePrefixed (v : String) : Bool :=
  match splitStr v ':' with
  | scheme :: rest =>
      match rest with
      | [] => false
      | _ :: _ =>
          (match scheme.data with
           | c :: cs => c.isAlpha && cs.all isSchemeChar
           | [] => false) &&
          startsWithHttpUrl (joinWith ":" rest)
  | [] => false

/-- `v.slice(v.indexOf(":") + 1)`: suffix after the first colon. -/
def sliceAfterFirstColon (v : String) : String :=
  match splitStr v ':' with
  | _ :: rest@(_ :: _) => joinWith ":" rest
  | _ => v

/-- The preprocessing of `Object.values(connections)` in `pickAemConnection`:
drop falsy values, trim, drop values that became empty. -/
def connectionValues (connections : List (String × String)) : List String :=
  (((connections.map Prod.snd).filter (fun v => v ≠ "")).map jsTrim).filter
    (fun v => v ≠ "")

/-- `pickAemConnection` (source lines 76–88): first scheme-prefixed value
(suffix after the first colon) if any, otherwise the first bare http(s) URL,
otherwise `null`. -/
def pickAemConnection (connections : List (String × String)) : Option String :=
  let values := connectionValues connections
  match values.find? matchesSchemePrefixed with
  | some v => some (sliceAfterFirstColon v)
  | none => values.find? startsWithHttpUrl

/-- The host base-URL search exactly as the specification sentence phrases
it: search the values for one "matching either `<scheme>:https://...` ... or
a bare `https://...` URL; first match wins".  Used only to compare the
specification's wording against `pickAemConnection`. -/
def pickAemConnectionClaimed (connections : List (String × String)) : Option String :=
  let values := connectionValues connections
  (values.find? fun v => matchesSchemePrefixed v || startsWithHttpUrl v).map
    fun v => if matchesSchemePrefixed v then sliceAfterFirstColon v else v

/-! ## Metadata key extraction (`resolveMetadataValue`, source lines 347–378) -/

/-- `resolveMetadataValue`: search the document root, then the
`assetMetadata` group, then the `repositoryMetadata` group (each only if it
is a truthy object), trying per candidate: exact key, case-insensitive key,
colon-to-underscore key.  Returns `(value, resolvedKey)`; an unresolved key
yields `("", "")`. -/
def resolveMetadataValue (metadataJson : Option JVal) (requestedKey : String) :
    JVal × String :=
  match metadataJson with
  | none => (.jstr "", "")
  | some json =>
    if ¬ jsIsObjectLike json then (.jstr "", "")
    else if requestedKey = "" then (.jstr "", "")
    else
      let sources := ([some json, getProp json "assetMetadata",
        getProp json "repositoryMetadata"].filterMap id).filter jsIsObjectLike
      let step : JVal → Option (JVal × String) := fun src =>
        let keys := keysOf src
        match getProp src requestedKey with
        | some direct => some (direct, requestedKey)
        | none =>
          let wantedLower := jsToLower requestedKey
          match keys.find? (fun k => jsToLower k = wantedLower) with
          | some ciKey => some ((getProp src ciKey).getD .jnull, ciKey)
          | none =>
            let colonToUnderscore :=
              String.mk (requestedKey.data.map fun c => if c = ':' then '_' else c)
            match keys.find? (fun k => jsToLower k = jsToLower colonToUnderscore) with
            | some underscoreKey =>
                some ((getProp src underscoreKey).getD .jnull, underscoreKey)
            | none => none
      match sources.findSome? step with
      | some r => r
      | none => (.jstr "", "")

/-- `stringifyMetadataValue` (source lines 385–394). -/
def stringifyMetadataValue : JVal → String
  | .jstr s => jsTrim s
  | .jarr xs => joinWith ", " ((xs.filter jsTruthy).map jsStringOf)
  | .jnull => ""
  | v => jsStringOf v

/-! ## The evaluation-cycle state machine (`runOnce` and friends)

`runOnce` (source lines 802–1231) is embedded as a pure function of

* the renderer's mutable refs (`EngineState`),
* one cycle's external inputs (`CycleInput`): the trigger `reason`, the
  current time, the outcome of the editor-state resolution (lines 814–913,
  which only read the host snapshot), and network oracles.

The module-level `lastDamPathBySelectionKey` map and the `useRef` cells are
the fields of `EngineState`; an `Effect` is recorded for every observable
action. -/

/-- The user-facing `status` state (`{ state, message }`). -/
structure StatusS where
  state : String
  message : String
deriving DecidableEq, Repr

/-- Observable actions of one evaluation cycle. -/
inductive Effect where
  | editorStateRead
  | fetchComponent
  | fetchDamMeta
  | fetchDeliveryMeta
  | writeField (v : String)
deriving DecidableEq, Repr

/-- The renderer's persistent mutable state: the module-scope
`lastDamPathBySelectionKey` map plus the `useRef` cells of the component. -/
structure EngineState where
  /-- `lastDamPathBySelectionKey` (module map, key `resource|assetField`). -/
  prevMap : List (String × String) := []
  /-- `lastSeenAssetRef.current` (initially `null`). -/
  lastSeen : Option String := none
  /-- `lastAppliedAssetRef.current` (initially `null`). -/
  lastApplied : Option String := none
  /-- `valueRef.current`. -/
  value : String := ""
  /-- `cooldownUntilRef.current`. -/
  cooldownUntil : Nat := 0
  /-- `persistedAssetCacheRef.current`. -/
  persistedCache : List (String × String) := []
  /-- `runSeqRef.current`. -/
  runSeq : Nat := 0
  /-- `lastRunReasonRef.current`. -/
  lastRunReason : String := ""
  /-- `applyTokenRef.current`. -/
  applyToken : String := ""
  /-- `status` React state. -/
  status : StatusS := ⟨"idle", ""⟩
deriving DecidableEq, Repr

/-- The field configuration from `getModel()` with the v1 defaults. -/
structure FieldConfig where
  assetField : String := "image"
  metadataKey : String := "dc:title"
deriving DecidableEq, Repr

/-- Outcome of the editor-state reading part of a cycle (source lines
814–913): the selected resource, its URN path, the resolved host and the
neighbor field's raw value.  `none` models "no selection and no stored
context" (early return at line 879). -/
structure ResolvedContext where
  selectedResource : String
  urnPath : String
  aemHost : Option String
  assetRawValue : String
deriving DecidableEq, Repr

/-- One cycle's external inputs.  The oracles give the response bodies the
three fetches would produce if performed (`.error` = the fetch throws). -/
structure CycleInput where
  reason : String
  now : Nat
  ctx : Option ResolvedContext
  persistedOracle : Except String JVal := .ok (.jobj [])
  damOracle : Except String JVal := .ok (.jobj [])
  deliveryOracle : Except String JVal := .ok (.jobj [])

/-- Result of one `runOnce` evaluation: final state, observable effects,
the raised error if the cycle threw, and the cycle's `resolvedAssetRef`
(`""` when none resolved or the cycle returned before resolving). -/
structure RunOutcome where
  state : EngineState
  effects : List Effect
  err : Option String
  resolvedRef : String
deriving DecidableEq, Repr

/-- `Map.set` on an insertion-ordered association list. -/
def setAssoc (k v : String) : List (String × String) → List (String × String)
  | [] => [(k, v)]
  | (k', v') :: rest => if k' = k then (k, v) :: rest else (k', v') :: setAssoc k v rest

/-- Source lines 991–995 / 872–876: the run is driven by a selection/persist
event stream. -/
def isSelectionRelatedReason (reason : String) : Bool :=
  strStartsWith reason "ueEvent:aue:content-patch" ||
  strStartsWith reason "ueEvent:aue:content-details" ||
  strStartsWith reason "ueEvent:aue:ui-select"

/-- Source lines 1000–1002: a late convergence retry. -/
def isLateConvergenceRetry (reason : String) : Bool :=
  strEndsWith reason ":retry2000" || strEndsWith reason ":retry5000"

/-- Source lines 1003–1004: the final convergence retry. -/
def isFinalConvergenceRetry (reason : String) : Bool :=
  strEndsWith reason ":retry5000"

/-- Source lines 1126–1128: a genuine content-commit event. -/
def isContentPatchReason (reason : String) : Bool :=
  strStartsWith reason "ueEvent:aue:content-patch" ||
  strStartsWith reason "ueEvent:aue:content-details"

/-- Author-facing status copy (source lines 48–49). -/
def msgUpdatingAssetDetails : String := "Updating image details…"

/-- Author-facing failure copy (source line 49). -/
def msgFailedAssetDetails : String := "Failed to read the asset details. Please try again."

/-- `fetchComponentProp` (source lines 131–156): guard on missing arguments,
then fetch `<resourcePath>.json` and return the property as a trimmed
string. -/
def fetchComponentProp (aemHost resourcePath propName : String)
    (oracle : Except String JVal) : Except String String × List Effect :=
  if aemHost = "" || resourcePath = "" || propName = "" then (.ok "", [])
  else
    match oracle with
    | .error e => (.error e, [.fetchComponent])
    | .ok json =>
        (.ok (match getProp json propName with
          | some (.jstr s) => jsTrim s
          | some .jnull => ""
          | none => ""
          | some other => jsStringOf other), [.fetchComponent])

/-- `fetchDamMetadataJson` (source lines 401–426): guard on missing
arguments, then fetch the DAM metadata document. -/
def fetchDamMetadataJson (aemHost assetPath : String)
    (oracle : Except String JVal) : Except String (Option JVal) × List Effect :=
  if aemHost = "" || assetPath = "" then (.ok none, [])
  else
    match oracle with
    | .error e => (.error e, [.fetchDamMeta])
    | .ok j => (.ok (some j), [.fetchDamMeta])

/-- `fetchDeliveryMetadataJson` (source lines 434–447): guard on missing
arguments, then fetch the delivery metadata document (uncredentialed). -/
def fetchDeliveryMetadataJson (deliveryOrigin assetUrn : String)
    (oracle : Except String JVal) : Except String (Option JVal) × List Effect :=
  if deliveryOrigin = "" || assetUrn = "" then (.ok none, [])
  else
    match oracle with
    | .error e => (.error e, [.fetchDeliveryMeta])
    | .ok j => (.ok (some j), [.fetchDeliveryMeta])

/-- The no-reference branch of `runOnce` (source lines 1054–1108): status
handling for a missing asset reference, and the conservative auto-clear on
late convergence retries. -/
def handleNoRef (cfg : FieldConfig) (s : EngineState)
    (selectedResource reason : String) : EngineState × List Effect :=
  let selectionKey := selectedResource ++ "|" ++ cfg.assetField
  let prevAssetRef := (s.prevMap.lookup selectionKey).getD ""
  let hadPreviousAsset := prevAssetRef != ""
  let alreadyClearedState :=
    !hadPreviousAsset && s.value == "" &&
      s.lastApplied == some "" && s.lastSeen == some ""
  if isSelectionRelatedReason reason && alreadyClearedState then
    ({ s with status := ⟨"done", "No asset selected"⟩ }, [])
  else
    let s1 :=
      if isSelectionRelatedReason reason then
        if isFinalConvergenceRetry reason then
          { s with status := ⟨"error", msgFailedAssetDetails⟩ }
        else { s with status := ⟨"loading", msgUpdatingAssetDetails⟩ }
      else s
    if hadPreviousAsset && isLateConvergenceRetry reason then
      let wfx : EngineState × List Effect :=
        if s1.value != "" then ({ s1 with value := "" }, [Effect.writeField ""])
        else (s1, [])
      ({ wfx.1 with lastApplied := some "", lastSeen := some "",
                    prevMap := setAssoc selectionKey "" wfx.1.prevMap,
                    status := ⟨"done", "No asset selected"⟩ }, wfx.2)
    else (s1, [])

/-- The change-detection / apply-decision part of `runOnce` (source lines
1110–1150): update `lastDamPathBySelectionKey`, compute `shouldApply`, and
record the currently-seen reference.  Returns the updated state and
`shouldApply`. -/
def decideApply (cfg : FieldConfig) (s : EngineState)
    (selectedResource reason resolvedAssetRef : String) : EngineState × Bool :=
  let selectionKey := selectedResource ++ "|" ++ cfg.assetField
  let prevAssetRef := (s.prevMap.lookup selectionKey).getD ""
  let assetChanged := prevAssetRef != "" && prevAssetRef != resolvedAssetRef
  let prevMap' :=
    if prevAssetRef == "" || assetChanged then
      setAssoc selectionKey resolvedAssetRef s.prevMap
    else s.prevMap
  let isFirstAssetSelection :=
    prevAssetRef == "" && resolvedAssetRef != "" && isContentPatchReason reason
  let shouldApply :=
    (assetChanged || isFirstAssetSelection) && s.lastApplied != some resolvedAssetRef
  ({ s with prevMap := prevMap', lastSeen := some resolvedAssetRef }, shouldApply)

/-- The write phase executed under the block write lock (source lines
1185–1230): abort when superseded (apply token changed) or when a different
non-empty reference is now the currently-seen one; otherwise record the
reference as applied and write the value when it differs from the renderer's
currently-tracked value. -/
def applyFinish (s : EngineState)
    (applyTokenAtStart resolvedAssetRef metadataValue resolvedKey metadataKey : String) :
    EngineState × List Effect :=
  if s.applyToken != applyTokenAtStart then (s, [])
  else if (match s.lastSeen with
           | some ls => ls != "" && ls != resolvedAssetRef
           | none => false) then (s, [])
  else
    let currentValue := s.value
    let s1 := { s with lastApplied := some resolvedAssetRef }
    let wfx : EngineState × List Effect :=
      if metadataValue != currentValue then
        ({ s1 with value := metadataValue }, [Effect.writeField metadataValue])
      else (s1, [])
    let doneMsg :=
      if metadataValue != "" then
        "Auto-filled from " ++ (if resolvedKey != "" then resolvedKey else metadataKey)
      else "No value found for " ++ metadataKey
    ({ wfx.1 with status := ⟨"done", doneMsg⟩ }, wfx.2)

/-- The metadata fetch of the apply phase (source lines 1164–1174): the
repository-path strategy when a DAM path resolved, otherwise the delivery
strategy. -/
def fetchMetadataStep
    (resolvedDamPath assetUrn deliveryOrigin : String) (aemHost : Option String)
    (damOracle deliveryOracle : Except String JVal) :
    Except String (Option JVal) × List Effect :=
  if resolvedDamPath != "" then
    fetchDamMetadataJson (aemHost.getD "") resolvedDamPath damOracle
  else fetchDeliveryMetadataJson deliveryOrigin assetUrn deliveryOracle

/-- The non-empty-reference path of `runOnce` (source lines 1110–1230):
decision, metadata fetch (repository-path or delivery strategy) and the
locked write phase. -/
def handleRef (cfg : FieldConfig) (s : EngineState)
    (selectedResource reason resolvedDamPath assetUrn deliveryOrigin : String)
    (aemHost : Option String) (resolvedAssetRef : String)
    (damOracle deliveryOracle : Except String JVal) : RunOutcome :=
  let d := decideApply cfg s selectedResource reason resolvedAssetRef
  if !d.2 then ⟨d.1, [], none, resolvedAssetRef⟩
  else
    let s2 := { d.1 with
      status := ⟨"loading", "Fetching " ++ cfg.metadataKey ++ "…"⟩,
      applyToken := resolvedAssetRef ++ "|" ++ Nat.repr d.1.runSeq }
    let fr := fetchMetadataStep resolvedDamPath assetUrn deliveryOrigin
      aemHost damOracle deliveryOracle
    match fr.1 with
    | .error e => ⟨s2, fr.2, some e, resolvedAssetRef⟩
    | .ok metadataJson =>
      let resolved := resolveMetadataValue metadataJson cfg.metadataKey
      let metadataValue := stringifyMetadataValue resolved.1
      let ap :=
        applyFinish s2 s2.applyToken resolvedAssetRef metadataValue resolved.2 cfg.metadataKey
      ⟨ap.1, fr.2 ++ ap.2, none, resolvedAssetRef⟩

/-- One evaluation cycle of the Apply Decision Engine, after the asset
reference has been resolved: the empty/non-empty dispatch at source line
1054. -/
def engineCycle (cfg : FieldConfig) (s : EngineState)
    (selectedResource reason resolvedDamPath assetUrn deliveryOrigin : String)
    (aemHost : Option String) (resolvedAssetRef : String)
    (damOracle deliveryOracle : Except String JVal) : RunOutcome :=
  if resolvedAssetRef == "" then
    let hn := handleNoRef cfg s selectedResource reason
    ⟨hn.1, hn.2, none, ""⟩
  else
    handleRef cfg s selectedResource reason resolvedDamPath assetUrn deliveryOrigin
      aemHost resolvedAssetRef damOracle deliveryOracle

/-- The persisted component value resolution of one cycle (source lines
930–974): consult the signature-keyed cache, otherwise fetch
`<resourcePath>.json` and apply the filename convergence guard; a stale read
is discarded and not cached.  `.inl (value, cache, effects)` is normal
completion, `.inr (message, effects)` is a thrown fetch error. -/
def resolvePersisted (cfg : FieldConfig) (cache : List (String × String))
    (urnPath : String) (aemHost : Option String) (assetSignature : String)
    (oracle : Except String JVal) :
    (String × List (String × String) × List Effect) ⊕ (String × List Effect) :=
  let host := aemHost.getD ""
  let canUsePersistedCache := assetSignature != ""
  let cacheKey := host ++ "|" ++ urnPath ++ "|" ++ cfg.assetField ++ "|" ++ assetSignature
  if urnPath != "" && host != "" then
    let cached :=
      if canUsePersistedCache then (cache.lookup cacheKey).getD "" else ""
    if cached != "" then .inl (cached, cache, [])
    else
      match fetchComponentProp host urnPath cfg.assetField oracle with
      | (.error e, fx) => .inr (e, fx)
      | (.ok persisted, fx) =>
        let dmName := basename assetSignature
        let persistedName := basename persisted
        let looksStale :=
          dmName != "" && persistedName != "" && dmName != persistedName
        if looksStale then .inl ("", cache, fx)
        else
          let cache' :=
            if canUsePersistedCache && persisted != "" then
              setAssoc cacheKey persisted cache
            else cache
          .inl (persisted, cache', fx)
  else .inl ("", cache, [])

/-- One full `runOnce` evaluation cycle (source lines 802–1231): cooldown
guard, editor-state read, persisted component value resolution with the
convergence guard and the signature-keyed cache, reference extraction, and
the Apply Decision Engine. -/
def runOnce (cfg : FieldConfig) (s0 : EngineState) (inp : CycleInput) : RunOutcome :=
  let s := { s0 with runSeq := s0.runSeq + 1, lastRunReason := inp.reason }
  if s.cooldownUntil != 0 && decide (inp.now < s.cooldownUntil) then
    ⟨s, [], none, ""⟩
  else
    match inp.ctx with
    | none =>
        let s' :=
          if isSelectionRelatedReason inp.reason then
            { s with status := ⟨"loading", msgUpdatingAssetDetails⟩ }
          else s
        ⟨s', [Effect.editorStateRead], none, ""⟩
    | some c =>
      let assetRawValue := jsTrim c.assetRawValue
      let assetPath := assetRawValue
      let assetSignature := normalizeAssetSignature assetRawValue
      match resolvePersisted cfg s.persistedCache c.urnPath c.aemHost assetSignature
        inp.persistedOracle with
      | .inr (e, fx) => ⟨s, Effect.editorStateRead :: fx, some e, ""⟩
      | .inl (persistedAssetValue, cache', fx) =>
        let s1 := { s with persistedCache := cache' }
        let assetValue :=
          jsTrim (if persistedAssetValue != "" then persistedAssetValue else assetPath)
        let deliveryOrigin := tryExtractOrigin assetValue
        let assetUrn := tryExtractAssetUrn assetValue
        let resolvedDamPath :=
          if strStartsWith assetValue "/content/dam/" then (splitStr assetValue '?').headD ""
          else tryExtractDamPath assetValue
        let resolvedAssetRef :=
          if resolvedDamPath != "" then resolvedDamPath else assetUrn
        let o := engineCycle cfg s1 c.selectedResource inp.reason resolvedDamPath
          assetUrn deliveryOrigin c.aemHost resolvedAssetRef
          inp.damOracle inp.deliveryOracle
        ⟨o.state, Effect.editorStateRead :: (fx ++ o.effects), o.err, o.resolvedRef⟩

/-- The `scheduleRun` wrapper (source lines 1234–1249): when the cycle
throws, the catch handler surfaces an error status and starts the 8-second
cooldown at the time the rejection is handled. -/
def scheduleRunStep (cfg : FieldConfig) (s : EngineState) (inp : CycleInput)
    (catchNow : Nat) : EngineState × List Effect :=
  let o := runOnce cfg s inp
  match o.err with
  | some m =>
      ({ o.state with status := ⟨"error", m⟩, cooldownUntil := catchNow + 8000 },
       o.effects)
  | none => (o.state, o.effects)

/-- Run a list of cycles, logging each cycle's resolved reference together
with its effects. -/
def runCycles (cfg : FieldConfig) (s : EngineState) :
    List CycleInput → EngineState × List (String × List Effect)
  | [] => (s, [])
  | inp :: rest =>
      let o := runOnce cfg s inp
      let r := runCycles cfg o.state rest
      (r.1, (o.resolvedRef, o.effects) :: r.2)

/-- The `onChange`/field writes among a cycle's effects. -/
def writesOf (fx : List Effect) : List String :=
  fx.filterMap fun e => match e with | .writeField v => some v | _ => none

/-- Number of field writes performed by cycles whose resolved reference is
`ref`, over a `runCycles` log. -/
def countWritesFor (ref : String) (log : List (String × List Effect)) : Nat :=
  (log.map fun p => if p.1 = ref then (writesOf p.2).length else 0).sum

/-- The inputs of a non-empty-reference evaluation cycle other than the
resolved reference itself, bundled so that sequences of cycles resolving the
same reference can be quantified over. -/
structure RefArgs where
  selectedResource : String
  reason : String
  resolvedDamPath : String
  assetUrn : String
  deliveryOrigin : String
  aemHost : Option String
  damOracle : Except String JVal := .ok (.jobj [])
  deliveryOracle : Except String JVal := .ok (.jobj [])

/-- One non-empty-reference cycle of the Apply Decision Engine (`handleRef`)
with its inputs bundled as `RefArgs`. -/
def refCycle (cfg : FieldConfig) (s : EngineState) (a : RefArgs) (ref : String) :
    RunOutcome :=
  handleRef cfg s a.selectedResource a.reason a.resolvedDamPath a.assetUrn
    a.deliveryOrigin a.aemHost ref a.damOracle a.deliveryOracle

/-- A sequence of consecutive evaluation cycles all resolving the same
reference `ref`, returning the final state and the concatenated effects. -/
def refCycles (cfg : FieldConfig) (ref : String) :
    EngineState → List RefArgs → EngineState × List Effect
  | s, [] => (s, [])
  | s, a :: rest =>
      let o := refCycle cfg s a ref
      let r := refCycles cfg ref o.state rest
      (r.1, o.effects ++ r.2)

/-! ## The Event Bridge consumer (`onStorage`, source lines 1278–1306) -/

/-- The most-recent-event record the registration context writes for the
renderer.  Modelled from the spec (the writer lives outside the renderer
component): the Event Bridge stores the event name and a wall-clock
timestamp (`Date.now()`). -/
structure UeEventRecord where
  eventName : String
  ts : Nat
deriving DecidableEq, Repr

/-- The storage key the renderer observes (source line 1279). -/
def ueEventStorageKey : String := "ue.assetmetadatadefaults.lastUeEvent"

/-- The `storage` handler (source lines 1278–1306) as a pure function:
given the last processed timestamp and the delivered record (`none` models
an unparsable payload), return the new last-processed timestamp and the
evaluations it schedules as `(delay, reason)` pairs (the immediate
`scheduleRun` is delay `0`; content patches add the four staggered
retries). -/
def onStorage (lastTs : Nat) (key : String) (record : Option UeEventRecord) :
    Nat × List (Nat × String) :=
  if key != ueEventStorageKey then (lastTs, [])
  else
    match record with
    | none => (lastTs, [])
    | some r =>
      let name := r.eventName
      let ts := r.ts
      if ts != 0 && ts == lastTs then (lastTs, [])
      else
        let lastTs' := if ts != 0 then ts else lastTs
        if name == "" then (lastTs', [])
        else if name == "aue:content-patch" || name == "aue:content-details" ||
            name == "aue:ui-select" || strStartsWith name "aue:" then
          let base := [(0, "ueEvent:" ++ name)]
          let retries :=
            if name == "aue:content-patch" || name == "aue:content-details" then
              [(250, "ueEvent:" ++ name ++ ":retry250"),
               (1000, "ueEvent:" ++ name ++ ":retry1000"),
               (2000, "ueEvent:" ++ name ++ ":retry2000"),
               (5000, "ueEvent:" ++ name ++ ":retry5000")]
            else []
          (lastTs', base ++ retries)
        else (lastTs', [])

/-! ## Concrete evaluation scenarios

Inputs used by the counterexamples and witnesses below.  They model an
authored block `/content/site/page/jcr:content/block` whose `image` field is
evaluated with the v1 default configuration. -/

/-- A resolved editor-state context for the example block; the neighbor
`image` field's visible value is empty (e.g. a plain component shape), so
the persisted component JSON is the only source of the reference. -/
def exCtx : ResolvedContext :=
  { selectedResource := "urn:aemconnection:/content/site/page/jcr:content/block"
    urnPath := "/content/site/page/jcr:content/block"
    aemHost := some "https://author.example.com"
    assetRawValue := "" }

/-- A content-patch cycle whose persisted component JSON references asset
`a.jpg` (metadata title `Alpha`). -/
def exCycleA : CycleInput :=
  { reason := "ueEvent:aue:content-patch", now := 0, ctx := some exCtx
    persistedOracle := .ok (.jobj [("image", .jstr "/content/dam/a.jpg")])
    damOracle := .ok (.jobj [("dc:title", .jstr "Alpha")]) }

/-- A content-patch cycle whose persisted component JSON references asset
`b.jpg` (metadata title `Beta`). -/
def exCycleB : CycleInput :=
  { reason := "ueEvent:aue:content-patch", now := 0, ctx := some exCtx
    persistedOracle := .ok (.jobj [("image", .jstr "/content/dam/b.jpg")])
    damOracle := .ok (.jobj [("dc:title", .jstr "Beta")]) }

/-- A late-stage (2s) convergence retry cycle in which the persisted
component JSON no longer contains the asset property: no reference
resolves. -/
def exCycleGone : CycleInput :=
  { reason := "ueEvent:aue:content-patch:retry2000", now := 0, ctx := some exCtx
    persistedOracle := .ok (.jobj []) }

/-- The C2 scenario: the author has just picked a new asset, the neighbor
field shows the new asset's delivery URL, but the persisted component JSON
still returns the previous asset `old-file.jpg`. -/
def exStaleCtx : ResolvedContext :=
  { exCtx with assetRawValue :=
      "/adobe/dynamicmedia/deliver/urn:aaid:aem:12ab34cd/new-file.jpg?width=800" }

/-- The renderer state for the C2 scenario: the field currently holds the
previous asset's applied title. -/
def exStaleState : EngineState := { value := "Old Title" }

/-- The stale-read cycle of the C2 scenario. -/
def exStaleCycle : CycleInput :=
  { reason := "ueEvent:aue:content-patch", now := 0, ctx := some exStaleCtx
    persistedOracle := .ok (.jobj [("image", .jstr "/content/dam/old-file.jpg")]) }

/-- `RefArgs` for an apply of the example asset `a.jpg` driven by a
content-patch event. -/
def exRefArgs : RefArgs :=
  { selectedResource := "urn:aemconnection:/content/site/page/jcr:content/block"
    reason := "ueEvent:aue:content-patch"
    resolvedDamPath := "/content/dam/a.jpg"
    assetUrn := ""
    deliveryOrigin := ""
    aemHost := some "https://author.example.com"
    damOracle := .ok (.jobj [("dc:title", .jstr "Alpha")]) }

/-- The example reference (repository path of `a.jpg`). -/
def exRef : String := "/content/dam/a.jpg"

/-- A cycle input that throws: the component fetch fails with a non-success
HTTP status. -/
def exErrCycle : CycleInput :=
  { reason := "ueEvent:aue:content-patch", now := 100, ctx := some exCtx
    persistedOracle :=
      .error "Component fetch failed (503) for /content/site/page/jcr:content/block" }

/-- Renderer state after asset `a.jpg` was applied for the example block:
used to exercise the auto-clear path. -/
def exClearState : EngineState :=
  { prevMap := [("urn:aemconnection:/content/site/page/jcr:content/block|image",
      "/content/dam/a.jpg")]
    lastSeen := some "/content/dam/a.jpg"
    lastApplied := some "/content/dam/a.jpg"
    value := "Alpha" }

/-- Connection mapping on which the specification's "first match wins"
wording and the source's two-pass search disagree: the first value is a bare
URL, a later one is scheme-prefixed. -/
def exConnections : List (String × String) :=
  [("repo", "https://bare.example"), ("aemconnection", "aem:https://author.example")]

/-! ## General lemmas about the embedding -/

theorem writesOf_append (l1 l2 : List Effect) :
    writesOf (l1 ++ l2) = writesOf l1 ++ writesOf l2 := by
  simp [writesOf]

theorem writesOf_fetchDamMetadataJson (h p : String) (o : Except String JVal) :
    writesOf (fetchDamMetadataJson h p o).2 = [] := by
  unfold fetchDamMetadataJson
  split
  · rfl
  · cases o <;> rfl

theorem writesOf_fetchDeliveryMetadataJson (d u : String) (o : Except String JVal) :
    writesOf (fetchDeliveryMetadataJson d u o).2 = [] := by
  unfold fetchDeliveryMetadataJson
  split
  · rfl
  · cases o <;> rfl

theorem writesOf_fetchMetadataStep (dam urn origin : String) (host : Option String)
    (damO delO : Except String JVal) :
    writesOf (fetchMetadataStep dam urn origin host damO delO).2 = [] := by
  unfold fetchMetadataStep
  split
  · exact writesOf_fetchDamMetadataJson _ _ _
  · exact writesOf_fetchDeliveryMetadataJson _ _ _

theorem decideApply_fst_lastApplied (cfg : FieldConfig) (s : EngineState)
    (selRes reason ref : String) :
    (decideApply cfg s selRes reason ref).1.lastApplied = s.lastApplied := rfl

theorem decideApply_fst_lastSeen (cfg : FieldConfig) (s : EngineState)
    (selRes reason ref : String) :
    (decideApply cfg s selRes reason ref).1.lastSeen = some ref := rfl

theorem decideApply_snd_false_of_lastApplied (cfg : FieldConfig) (s : EngineState)
    (selRes reason ref : String) (h : s.lastApplied = some ref) :
    (decideApply cfg s selRes reason ref).2 = false := by
  simp [decideApply, h]

theorem applyFinish_lastApplied_self_token (s : EngineState)
    (ref mv rk mk : String) (hseen : s.lastSeen = some ref) :
    (applyFinish s s.applyToken ref mv rk mk).1.lastApplied = some ref := by
  simp only [applyFinish, bne_self_eq_false, Bool.false_eq_true, if_false, hseen,
    bne_self_eq_false, Bool.and_false]
  split <;> rfl

theorem refCycle_of_lastApplied (cfg : FieldConfig) (s : EngineState) (a : RefArgs)
    (ref : String) (h : s.lastApplied = some ref) :
    refCycle cfg s a ref
      = ⟨(decideApply cfg s a.selectedResource a.reason ref).1, [], none, ref⟩ := by
  have hd := decideApply_snd_false_of_lastApplied cfg s a.selectedResource a.reason ref h
  simp [refCycle, handleRef, hd]

theorem refCycle_cases (cfg : FieldConfig) (s : EngineState) (a : RefArgs) (ref : String) :
    (refCycle cfg s a ref).state.lastApplied = some ref ∨
      writesOf (refCycle cfg s a ref).effects = [] := by
  cases hd : (decideApply cfg s a.selectedResource a.reason ref).2 with
  | false =>
      right
      simp [refCycle, handleRef, hd, writesOf]
  | true =>
      simp only [refCycle, handleRef, hd, Bool.not_true, Bool.false_eq_true, if_false]
      rcases hfr : fetchMetadataStep a.resolvedDamPath a.assetUrn a.deliveryOrigin
          a.aemHost a.damOracle a.deliveryOracle with ⟨mres, fxm⟩
      have hw := writesOf_fetchMetadataStep a.resolvedDamPath a.assetUrn a.deliveryOrigin
          a.aemHost a.damOracle a.deliveryOracle
      rw [hfr] at hw
      simp only [hfr]
      cases mres with
      | error e =>
          right
          exact hw
      | ok mj =>
          left
          exact applyFinish_lastApplied_self_token _ ref _ _ _ rfl

theorem refCycle_no_write_of_lastApplied (cfg : FieldConfig) (s : EngineState)
    (a : RefArgs) (ref : String) (h : s.lastApplied = some ref) :
    writesOf (refCycle cfg s a ref).effects = [] ∧
      (refCycle cfg s a ref).state.lastApplied = some ref := by
  rw [refCycle_of_lastApplied cfg s a ref h]
  exact ⟨rfl, by rw [decideApply_fst_lastApplied]; exact h⟩

theorem refCycles_no_write_of_lastApplied (cfg : FieldConfig) (ref : String)
    (s : EngineState) (l : List RefArgs) (h : s.lastApplied = some ref) :
    writesOf (refCycles cfg ref s l).2 = [] := by
  induction l generalizing s with
  | nil => rfl
  | cons a rest ih =>
      have h1 := refCycle_no_write_of_lastApplied cfg s a ref h
      simp only [refCycles]
      rw [writesOf_append, h1.1, ih _ h1.2]
      rfl

theorem lookup_setAssoc_self (k v : String) (l : List (String × String)) :
    (setAssoc k v l).lookup k = some v := by
  induction l with
  | nil => simp [setAssoc, List.lookup]
  | cons hd tl ih =>
    obtain ⟨k', v'⟩ := hd
    by_cases hk : k' = k
    · simp [setAssoc, hk, List.lookup]
    · simp only [setAssoc, if_neg hk, List.lookup]
      have : (k == k') = false := by
        simp [Ne.symm hk]
      simp [this, ih]

/-! ## Claim C7 — metadata key extraction -/

/-- **C7.** Metadata key extraction checks the document root, then the
`assetMetadata` group, then the `repositoryMetadata` group (each only when
it is a present object), trying exact, case-insensitive and
colon-to-underscore key matching within each candidate; the first candidate
yielding a match wins and an unresolved key yields an empty value.
Concretely: `{"dc:title": "Mountain"}` with key `dc:title` or `DC:TITLE`
yields `"Mountain"`; key `dc:title` against `dc_title` resolves via the
underscore fallback; `{"assetMetadata": {"dc:title": "Lake"}}` with no
root-level key yields `"Lake"`; a root-level key beats the groups, the
`assetMetadata` group beats `repositoryMetadata`, exact beats
case-insensitive beats underscore matching, non-object groups are skipped,
and an unresolved key gives `("", "")` rather than an error. -/
theorem c7_metadata_key_extraction :
    resolveMetadataValue (some (.jobj [("dc:title", .jstr "Mountain")])) "dc:title"
      = (.jstr "Mountain", "dc:title") ∧
    resolveMetadataValue (some (.jobj [("dc:title", .jstr "Mountain")])) "DC:TITLE"
      = (.jstr "Mountain", "dc:title") ∧
    resolveMetadataValue (some (.jobj [("dc_title", .jstr "Mountain")])) "dc:title"
      = (.jstr "Mountain", "dc_title") ∧
    resolveMetadataValue
      (some (.jobj [("assetMetadata", .jobj [("dc:title", .jstr "Lake")])])) "dc:title"
      = (.jstr "Lake", "dc:title") ∧
    resolveMetadataValue
      (some (.jobj [("assetMetadata", .jobj [("dc:title", .jstr "Lake")]),
                    ("dc:title", .jstr "Root")])) "dc:title"
      = (.jstr "Root", "dc:title") ∧
    resolveMetadataValue
      (some (.jobj [("repositoryMetadata", .jobj [("dc:title", .jstr "Repo")]),
                    ("assetMetadata", .jobj [("dc:title", .jstr "Asset")])])) "dc:title"
      = (.jstr "Asset", "dc:title") ∧
    resolveMetadataValue
      (some (.jobj [("assetMetadata", .jstr "not-an-object"),
                    ("repositoryMetadata", .jobj [("dc:title", .jstr "Repo")])])) "dc:title"
      = (.jstr "Repo", "dc:title") ∧
    resolveMetadataValue
      (some (.jobj [("DC:TITLE", .jstr "CaseInsensitive"),
                    ("dc:title", .jstr "Exact")])) "dc:title"
      = (.jstr "Exact", "dc:title") ∧
    resolveMetadataValue
      (some (.jobj [("dc_title", .jstr "Underscore"),
                    ("DC:title", .jstr "CaseInsensitive")])) "dc:title"
      = (.jstr "CaseInsensitive", "DC:title") ∧
    resolveMetadataValue (some (.jobj [("other", .jstr "x")])) "dc:title"
      = (.jstr "", "") := by
  refine ⟨rfl, rfl, rfl, rfl, rfl, rfl, rfl, rfl, rfl, rfl⟩

/-! ## Claim C10 — fetch entry-point guards -/

/-- **C10.** Each fetch entry point guards its arguments and degrades
silently: `fetchComponentProp` with a missing host, resource path or
property name returns the empty string; `fetchDamMetadataJson` with a
missing host or asset path, and `fetchDeliveryMetadataJson` with a missing
delivery origin or asset URN, return `null` — in all cases without
performing any network request (no fetch effect) and without raising an
error. -/
theorem c10_fetch_guards :
    (∀ (rp pn : String) (o : Except String JVal),
        fetchComponentProp "" rp pn o = (.ok "", [])) ∧
    (∀ (h pn : String) (o : Except String JVal),
        fetchComponentProp h "" pn o = (.ok "", [])) ∧
    (∀ (h rp : String) (o : Except String JVal),
        fetchComponentProp h rp "" o = (.ok "", [])) ∧
    (∀ (p : String) (o : Except String JVal),
        fetchDamMetadataJson "" p o = (.ok none, [])) ∧
    (∀ (h : String) (o : Except String JVal),
        fetchDamMetadataJson h "" o = (.ok none, [])) ∧
    (∀ (u : String) (o : Except String JVal),
        fetchDeliveryMetadataJson "" u o = (.ok none, [])) ∧
    (∀ (d : String) (o : Except String JVal),
        fetchDeliveryMetadataJson d "" o = (.ok none, [])) := by
  refine ⟨?_, ?_, ?_, ?_, ?_, ?_, ?_⟩ <;> intros <;>
    simp [fetchComponentProp, fetchDamMetadataJson, fetchDeliveryMetadataJson]

/-! ## Claim C9 — Event Bridge duplicate-delivery idempotence -/

/-- **C9.** Upon delivery of a host event record through the Event Bridge
(whose records carry a `Date.now()` wall-clock timestamp, hence non-zero),
the renderer schedules an evaluation only when the record's timestamp
differs from the last timestamp it processed; a duplicate delivery carrying
the same timestamp as the previously processed record causes no reaction. -/
theorem c9_duplicate_delivery_no_reaction (lastTs : Nat) (r : UeEventRecord)
    (hts : r.ts ≠ 0) :
    (r.ts = lastTs → onStorage lastTs ueEventStorageKey (some r) = (lastTs, [])) ∧
    ((onStorage lastTs ueEventStorageKey (some r)).2 ≠ [] → r.ts ≠ lastTs) := by
  constructor
  · intro hdup
    have hts' : lastTs ≠ 0 := hdup ▸ hts
    simp [onStorage, hdup, hts']
  · intro hreact hdup
    apply hreact
    have hts' : lastTs ≠ 0 := hdup ▸ hts
    simp [onStorage, hdup, hts']

/-- Witness for C9: a concrete duplicate delivery (timestamp `42` twice in a
row) is a no-op. -/
theorem c9_duplicate_delivery_no_reaction_witness :
    (42 ≠ 0 ∧ 42 = 42) ∧
    onStorage 42 ueEventStorageKey (some ⟨"aue:content-patch", 42⟩) = (42, []) :=
  ⟨⟨by decide, rfl⟩,
   (c9_duplicate_delivery_no_reaction 42 ⟨"aue:content-patch", 42⟩ (by decide)).1 rfl⟩

/-! ## Claim C1 — write-once per resolved reference -/

/-- **C1 is false as stated.**  The claim asserts that over any sequence of
evaluation cycles the field is written *at most once per distinct resolved
reference value*.  The engine only remembers the *last* applied reference,
so the selection sequence `a.jpg`, `b.jpg`, `a.jpg` writes the field twice
for the reference `/content/dam/a.jpg`: the re-selection of `a.jpg` after
`b.jpg` differs from both the previously recorded and the last applied
reference and is applied again. -/
theorem c1_counterexample :
    countWritesFor exRef (runCycles {} {} [exCycleA, exCycleB, exCycleA]).2 = 2 ∧
    ¬ countWritesFor exRef (runCycles {} {} [exCycleA, exCycleB, exCycleA]).2 ≤ 1 :=
  ⟨rfl, by decide⟩

/-- **C1 amended.**  The Apply Decision Engine writes at most once per
maximal run of consecutive cycles resolving the same reference, and a cycle
whose resolved reference equals the last applied reference performs no
write: (1) if the last applied reference already equals the cycle's resolved
reference, the cycle writes nothing; (2) once a cycle has performed a write
for a reference, every subsequent consecutive cycle resolving the same
reference (any number of them, with arbitrary inputs and oracles) writes
nothing.  A write for the same reference can recur only after a cycle
resolving a different reference (as in the counterexample). -/
theorem c1_amended (cfg : FieldConfig) (s : EngineState) (a : RefArgs) (ref : String) :
    (s.lastApplied = some ref → writesOf (refCycle cfg s a ref).effects = []) ∧
    (writesOf (refCycle cfg s a ref).effects ≠ [] →
      ∀ l : List RefArgs,
        writesOf (refCycles cfg ref (refCycle cfg s a ref).state l).2 = []) := by
  constructor
  · intro h
    exact (refCycle_no_write_of_lastApplied cfg s a ref h).1
  · intro h l
    rcases refCycle_cases cfg s a ref with hla | hw
    · exact refCycles_no_write_of_lastApplied cfg ref _ l hla
    · exact absurd hw h

/-- Witness for C1 (amended): a first content-patch cycle for `a.jpg`
writes, and two further cycles resolving the same reference write
nothing. -/
theorem c1_amended_witness :
    writesOf (refCycle {} {} exRefArgs exRef).effects ≠ [] ∧
    writesOf
      (refCycles {} exRef (refCycle {} {} exRefArgs exRef).state
        [exRefArgs, exRefArgs]).2 = [] :=
  ⟨by decide, (c1_amended {} {} exRefArgs exRef).2 (by decide) [exRefArgs, exRefArgs]⟩

/-! ## Claim C4 — no auto-fill merely because the field is empty -/

/-- **C4.** The field is never auto-filled merely because its current value
is empty: a non-empty-reference cycle performs a metadata write only when
the resolved reference differs from the previously recorded non-empty
reference for the selection key (asset changed), or when no previous
reference exists and the trigger reason is a genuine content-commit event
(true first selection); and the apply condition (`shouldApply`) is
independent of the renderer's current field value, so emptiness of the
value plays no part in it. -/
theorem c4_no_autofill_when_empty (cfg : FieldConfig) (s : EngineState)
    (selRes reason dam urn origin : String) (host : Option String) (ref : String)
    (damO delO : Except String JVal) (href : ref ≠ "") :
    (writesOf
        (engineCycle cfg s selRes reason dam urn origin host ref damO delO).effects
        ≠ [] →
      (((s.prevMap.lookup (selRes ++ "|" ++ cfg.assetField)).getD "" ≠ "" ∧
        (s.prevMap.lookup (selRes ++ "|" ++ cfg.assetField)).getD "" ≠ ref) ∨
       ((s.prevMap.lookup (selRes ++ "|" ++ cfg.assetField)).getD "" = "" ∧
        isContentPatchReason reason = true))) ∧
    (∀ v' : String,
      (decideApply cfg { s with value := v' } selRes reason ref).2
        = (decideApply cfg s selRes reason ref).2) := by
  constructor
  · intro hwr
    have hrefb : (ref == "") = false := by
      simp [href]
    cases hd : (decideApply cfg s selRes reason ref).2 with
    | false =>
        exfalso
        apply hwr
        simp [engineCycle, hrefb, handleRef, hd, writesOf]
    | true =>
        have hd' := hd
        simp only [decideApply] at hd'
        rcases Bool.and_eq_true_iff.mp hd' with ⟨hor, -⟩
        rcases Bool.or_eq_true_iff.mp hor with hch | hfst
        · rcases Bool.and_eq_true_iff.mp hch with ⟨h1, h2⟩
          exact Or.inl ⟨bne_iff_ne.mp h1, bne_iff_ne.mp h2⟩
        · rcases Bool.and_eq_true_iff.mp hfst with ⟨h12, h3⟩
          rcases Bool.and_eq_true_iff.mp h12 with ⟨h1, -⟩
          exact Or.inr ⟨eq_of_beq h1, h3⟩
  · intro v'
    rfl

/-- Witness for C4: a first selection of `a.jpg` driven by a content-patch
event writes, and indeed no previous reference existed and the reason is a
content-commit reason; the decision is unchanged under any current field
value. -/
theorem c4_no_autofill_when_empty_witness :
    ("/content/dam/a.jpg" ≠ "" ∧
      writesOf
        (engineCycle {} {} "res" "ueEvent:aue:content-patch" "/content/dam/a.jpg" ""
          "" (some "https://author.example.com") "/content/dam/a.jpg"
          (.ok (.jobj [("dc:title", .jstr "Alpha")])) (.ok (.jobj []))).effects ≠ []) ∧
    ((((({} : EngineState).prevMap.lookup ("res" ++ "|" ++ ({} : FieldConfig).assetField)).getD "" ≠ "" ∧
       ((({} : EngineState).prevMap.lookup ("res" ++ "|" ++ ({} : FieldConfig).assetField)).getD "" ≠ "/content/dam/a.jpg")) ∨
      ((({} : EngineState).prevMap.lookup ("res" ++ "|" ++ ({} : FieldConfig).assetField)).getD "" = "" ∧
       isContentPatchReason "ueEvent:aue:content-patch" = true))) :=
  ⟨⟨by decide, by decide⟩,
   (c4_no_autofill_when_empty {} {} "res" "ueEvent:aue:content-patch"
      "/content/dam/a.jpg" "" "" (some "https://author.example.com")
      "/content/dam/a.jpg" (.ok (.jobj [("dc:title", .jstr "Alpha")]))
      (.ok (.jobj [])) (by decide)).1 (by decide)⟩

/-! ## Claim C5 — staleness guard during apply -/

/-- **C5.** If, while an apply's metadata fetch was in flight, a newer apply
attempt superseded it (the apply token changed) or a newer evaluation cycle
recorded a different (non-empty) currently-seen resolved reference, the
in-flight apply aborts before writing: the write phase returns with the
state unchanged and no `onChange` call with the stale metadata value. -/
theorem c5_stale_apply_aborts (s : EngineState)
    (tok ref mv rk mk : String)
    (h : s.applyToken ≠ tok ∨
         ∃ ls, s.lastSeen = some ls ∧ ls ≠ "" ∧ ls ≠ ref) :
    applyFinish s tok ref mv rk mk = (s, []) := by
  cases htok : (s.applyToken != tok) with
  | true => simp [applyFinish, htok]
  | false =>
      rcases h with hne | ⟨ls, hls, h1, h2⟩
      · exact absurd (bne_iff_ne.mpr hne) (by simp [htok])
      · simp [applyFinish, htok, hls, h1, h2]

/-- Witness for C5: an apply whose token was superseded (`old` vs the
current `new`) performs no write and leaves the state untouched. -/
theorem c5_stale_apply_aborts_witness :
    ({ applyToken := "new" : EngineState }.applyToken ≠ "old") ∧
    applyFinish { applyToken := "new" } "old" "/content/dam/a.jpg" "Alpha" "dc:title"
        "dc:title" = ({ applyToken := "new" }, []) :=
  ⟨by decide,
   c5_stale_apply_aborts { applyToken := "new" } "old" "/content/dam/a.jpg" "Alpha"
     "dc:title" "dc:title" (Or.inl (by decide))⟩

/-! ## Claim C3 — conservative auto-clear on reference removal -/

/-- **C3 is false as stated.**  The claim ends with "the field is never
cleared on the first absence observation".  In the primary removal scenario
the earlier evaluations of an event's retry schedule still read the stale
persisted value (or, as here, simply resolve the still-present previous
asset), so the late `retry2000` evaluation is the *first* cycle to observe
the absence — and it clears immediately.  In this two-cycle trace, cycle 1
resolves `a.jpg` and applies it; cycle 2 is the first cycle resolving no
reference, and that very cycle writes `""` and records empty as last-seen
and last-applied. -/
theorem c3_counterexample :
    (runCycles {} {} [exCycleA, exCycleGone]).2.map Prod.fst
      = ["/content/dam/a.jpg", ""] ∧
    (runCycles {} {} [exCycleA, exCycleGone]).2.map (fun p => writesOf p.2)
      = [["Alpha"], [""]] ∧
    (runCycles {} {} [exCycleA, exCycleGone]).1.lastApplied = some "" ∧
    (runCycles {} {} [exCycleA, exCycleGone]).1.lastSeen = some "" :=
  ⟨rfl, rfl, rfl, rfl⟩

/-- **C3 amended.**  An evaluation cycle in which no asset reference
resolves auto-clears the field (writes empty when the tracked value is
non-empty, and records empty as last-seen, last-applied and in the
per-selection map) exactly when a prior non-empty reference was recorded for
the (selected resource, asset field) pair AND the trigger reason is a
designated late-stage retry (`:retry2000`/`:retry5000`); a cycle whose
reason is not a late-stage retry — in particular the immediate, non-retry
evaluation of an event — never clears and leaves the reference-tracking
state and field value untouched.  (The late-stage retry that clears may
nevertheless be the first cycle to *observe* the absence, as the
counterexample shows.) -/
theorem c3_amended (cfg : FieldConfig) (s : EngineState) (selRes reason : String) :
    (¬((s.prevMap.lookup (selRes ++ "|" ++ cfg.assetField)).getD "" ≠ "" ∧
        isLateConvergenceRetry reason = true) →
      (handleNoRef cfg s selRes reason).2 = [] ∧
      (handleNoRef cfg s selRes reason).1.lastApplied = s.lastApplied ∧
      (handleNoRef cfg s selRes reason).1.lastSeen = s.lastSeen ∧
      (handleNoRef cfg s selRes reason).1.value = s.value ∧
      (handleNoRef cfg s selRes reason).1.prevMap = s.prevMap) ∧
    (((s.prevMap.lookup (selRes ++ "|" ++ cfg.assetField)).getD "" ≠ "" ∧
        isLateConvergenceRetry reason = true) →
      (handleNoRef cfg s selRes reason).1.lastApplied = some "" ∧
      (handleNoRef cfg s selRes reason).1.lastSeen = some "" ∧
      (handleNoRef cfg s selRes reason).1.value = "" ∧
      (handleNoRef cfg s selRes reason).1.prevMap.lookup
        (selRes ++ "|" ++ cfg.assetField) = some "" ∧
      (handleNoRef cfg s selRes reason).2
        = (if s.value = "" then [] else [Effect.writeField ""])) := by
  constructor
  · intro hno
    by_cases hprev : (s.prevMap.lookup (selRes ++ "|" ++ cfg.assetField)).getD "" = ""
    · have hb : (((s.prevMap.lookup (selRes ++ "|" ++ cfg.assetField)).getD "" != "")
          : Bool) = false := by simp [hprev]
      simp only [handleNoRef, hb, Bool.not_false, Bool.true_and, Bool.false_and,
        Bool.and_false, Bool.false_eq_true, if_false]
      split_ifs <;> simp
    · have hlate : isLateConvergenceRetry reason = false := by
        rcases Bool.eq_false_or_eq_true (isLateConvergenceRetry reason) with h | h
        · exact absurd ⟨hprev, h⟩ hno
        · exact h
      have hb : (((s.prevMap.lookup (selRes ++ "|" ++ cfg.assetField)).getD "" != "")
          : Bool) = true := bne_iff_ne.mpr hprev
      simp only [handleNoRef, hb, hlate, Bool.not_true, Bool.false_and, Bool.and_false,
        Bool.and_true, Bool.false_eq_true, if_false]
      split_ifs <;> simp
  · intro hcl
    obtain ⟨hprev, hlate⟩ := hcl
    have hb : (((s.prevMap.lookup (selRes ++ "|" ++ cfg.assetField)).getD "" != "")
        : Bool) = true := bne_iff_ne.mpr hprev
    by_cases hv : s.value = "" <;>
      simp only [handleNoRef, hb, hlate, Bool.not_true, Bool.false_and, Bool.and_true,
        Bool.true_and, Bool.false_eq_true, if_false, if_true] <;>
      split_ifs <;>
      simp_all [lookup_setAssoc_self]

/-- Witness for C3 (amended): with a previously applied `a.jpg` for the
example block, a `retry2000` cycle with no resolving reference clears the
field, and an immediate (non-retry) content-patch cycle does not. -/
theorem c3_amended_witness :
    (((exClearState.prevMap.lookup
        ("urn:aemconnection:/content/site/page/jcr:content/block" ++ "|" ++
          ({} : FieldConfig).assetField)).getD "" ≠ "" ∧
      isLateConvergenceRetry "ueEvent:aue:content-patch:retry2000" = true) ∧
     ¬((exClearState.prevMap.lookup
        ("urn:aemconnection:/content/site/page/jcr:content/block" ++ "|" ++
          ({} : FieldConfig).assetField)).getD "" ≠ "" ∧
      isLateConvergenceRetry "ueEvent:aue:content-patch" = true)) ∧
    ((handleNoRef {} exClearState
        "urn:aemconnection:/content/site/page/jcr:content/block"
        "ueEvent:aue:content-patch:retry2000").1.lastApplied = some "" ∧
     (handleNoRef {} exClearState
        "urn:aemconnection:/content/site/page/jcr:content/block"
        "ueEvent:aue:content-patch:retry2000").2 = [Effect.writeField ""]) ∧
    (handleNoRef {} exClearState
        "urn:aemconnection:/content/site/page/jcr:content/block"
        "ueEvent:aue:content-patch").2 = [] := by
  have h2 := (c3_amended {} exClearState
    "urn:aemconnection:/content/site/page/jcr:content/block"
    "ueEvent:aue:content-patch:retry2000").2 ⟨by decide, by decide⟩
  have h1 := (c3_amended {} exClearState
    "urn:aemconnection:/content/site/page/jcr:content/block"
    "ueEvent:aue:content-patch").1 (by decide)
  refine ⟨⟨⟨by decide, by decide⟩, by decide⟩, ⟨h2.1, ?_⟩, h1.1⟩
  rw [h2.2.2.2.2]
  decide

/-! ## Claim C6 — error status and evaluation cooldown -/

/-- **C6.** When an evaluation cycle throws, the `scheduleRun` catch handler
surfaces an error status and starts the 8-second cooldown at the moment the
rejection is handled; every evaluation that starts while the cooldown is
armed and unexpired returns immediately (no editor-state read, no fetch, no
write — no effects at all, only the run counter and last-reason trace
advance); an evaluation that starts at or after the cooldown expiry
proceeds normally, beginning with the editor-state read. -/
theorem c6_error_cooldown (cfg : FieldConfig) (s : EngineState) (inp : CycleInput)
    (catchNow : Nat) (m : String) :
    ((runOnce cfg s inp).err = some m →
      (scheduleRunStep cfg s inp catchNow).1.status = ⟨"error", m⟩ ∧
      (scheduleRunStep cfg s inp catchNow).1.cooldownUntil = catchNow + 8000) ∧
    (s.cooldownUntil ≠ 0 → inp.now < s.cooldownUntil →
      runOnce cfg s inp
        = ⟨{ s with runSeq := s.runSeq + 1, lastRunReason := inp.reason },
            [], none, ""⟩) ∧
    (s.cooldownUntil ≤ inp.now →
      (runOnce cfg s inp).effects.head? = some Effect.editorStateRead) := by
  refine ⟨?_, ?_, ?_⟩
  · intro herr
    simp [scheduleRunStep, herr]
  · intro h0 hlt
    simp [runOnce, bne_iff_ne.mpr h0, hlt]
  · intro hle
    have hnl : ¬ (inp.now < s.cooldownUntil) := not_lt.mpr hle
    cases hctx : inp.ctx with
    | none => simp [runOnce, hnl, hctx]
    | some c =>
        cases hres : resolvePersisted cfg s.persistedCache c.urnPath c.aemHost
            (normalizeAssetSignature (jsTrim c.assetRawValue)) inp.persistedOracle with
        | inl t =>
            obtain ⟨pv, cache', fx⟩ := t
            simp [runOnce, hnl, hctx, hres]
        | inr t =>
            obtain ⟨e, fx⟩ := t
            simp [runOnce, hnl, hctx, hres]

/-- Witness for C6: the failing component fetch of `exErrCycle` surfaces an
error and arms the cooldown until `8120`; a run at `5000` is suppressed with
no effects; a run at `8120` proceeds and reads editor state. -/
theorem c6_error_cooldown_witness :
    (runOnce {} {} exErrCycle).err
      = some "Component fetch failed (503) for /content/site/page/jcr:content/block" ∧
    (scheduleRunStep {} {} exErrCycle 120).1.status
      = ⟨"error",
         "Component fetch failed (503) for /content/site/page/jcr:content/block"⟩ ∧
    (scheduleRunStep {} {} exErrCycle 120).1.cooldownUntil = 8120 ∧
    runOnce {} (scheduleRunStep {} {} exErrCycle 120).1 { exCycleA with now := 5000 }
      = ⟨{ (scheduleRunStep {} {} exErrCycle 120).1 with
            runSeq := (scheduleRunStep {} {} exErrCycle 120).1.runSeq + 1,
            lastRunReason := "ueEvent:aue:content-patch" }, [], none, ""⟩ ∧
    (runOnce {} (scheduleRunStep {} {} exErrCycle 120).1
        { exCycleA with now := 8120 }).effects.head?
      = some Effect.editorStateRead := by
  have herr := (c6_error_cooldown {} {} exErrCycle 120
    "Component fetch failed (503) for /content/site/page/jcr:content/block").1 rfl
  refine ⟨rfl, herr.1, ?_, ?_, ?_⟩
  · rw [herr.2]
  · exact (c6_error_cooldown {} (scheduleRunStep {} {} exErrCycle 120).1
      { exCycleA with now := 5000 } 0 "").2.1 (by decide) (by decide)
  · exact (c6_error_cooldown {} (scheduleRunStep {} {} exErrCycle 120).1
      { exCycleA with now := 8120 } 0 "").2.2 (by decide)

/-! ## Claim C2 — stale persisted reads are discarded and never cached -/

theorem handleNoRef_persistedCache (cfg : FieldConfig) (s : EngineState)
    (selRes reason : String) :
    (handleNoRef cfg s selRes reason).1.persistedCache = s.persistedCache := by
  simp only [handleNoRef]
  split_ifs <;> rfl

theorem applyFinish_persistedCache (s : EngineState) (tok ref mv rk mk : String) :
    (applyFinish s tok ref mv rk mk).1.persistedCache = s.persistedCache := by
  simp only [applyFinish]
  split_ifs <;> rfl

theorem handleRef_persistedCache (cfg : FieldConfig) (s : EngineState)
    (selRes reason dam urn origin : String) (host : Option String) (ref : String)
    (damO delO : Except String JVal) :
    (handleRef cfg s selRes reason dam urn origin host ref damO delO).state.persistedCache
      = s.persistedCache := by
  simp only [handleRef]
  split
  · rfl
  · split
    · rfl
    · rw [applyFinish_persistedCache]
      rfl

theorem engineCycle_persistedCache (cfg : FieldConfig) (s : EngineState)
    (selRes reason dam urn origin : String) (host : Option String) (ref : String)
    (damO delO : Except String JVal) :
    (engineCycle cfg s selRes reason dam urn origin host ref damO delO).state.persistedCache
      = s.persistedCache := by
  unfold engineCycle
  split
  · exact handleNoRef_persistedCache cfg s selRes reason
  · exact handleRef_persistedCache cfg s selRes reason dam urn origin host ref damO delO

/-- A persisted component fetch whose filename disagrees with the visible
asset signature is treated as not converged: the result is discarded
(`persistedAssetValue = ""`) and the cache is left untouched. -/
theorem resolvePersisted_stale_discard (cfg : FieldConfig)
    (cache : List (String × String)) (urnPath : String) (aemHost : Option String)
    (sig : String) (j : JVal) (p : String)
    (hu : urnPath ≠ "") (hh : aemHost.getD "" ≠ "")
    (hmiss : (cache.lookup ((aemHost.getD "") ++ "|" ++ urnPath ++ "|" ++
        cfg.assetField ++ "|" ++ sig)).getD "" = "")
    (hp : fetchComponentProp (aemHost.getD "") urnPath cfg.assetField (.ok j)
        = (.ok p, [Effect.fetchComponent]))
    (hsig : basename sig ≠ "") (hpn : basename p ≠ "")
    (hdiff : basename sig ≠ basename p) :
    resolvePersisted cfg cache urnPath aemHost sig (.ok j)
      = .inl ("", cache, [Effect.fetchComponent]) := by
  have hsig' : sig ≠ "" := fun h => hsig (by rw [h]; rfl)
  have h1 : (urnPath != "") = true := bne_iff_ne.mpr hu
  have h2 : ((aemHost.getD "") != "") = true := bne_iff_ne.mpr hh
  have h3 : (sig != "") = true := bne_iff_ne.mpr hsig'
  have h4 : (basename sig != "") = true := bne_iff_ne.mpr hsig
  have h5 : (basename p != "") = true := bne_iff_ne.mpr hpn
  have h6 : (basename sig != basename p) = true := bne_iff_ne.mpr hdiff
  simp only [resolvePersisted, h1, h2, h3, Bool.and_self, Bool.true_and, if_true,
    hmiss, hp, h4, h5, h6, bne_self_eq_false, Bool.false_eq_true, if_false]

/-- The same cycle evaluated with an empty persisted property (the value the
stale branch degrades to) produces the same resolution outcome. -/
theorem resolvePersisted_empty_fetch (cfg : FieldConfig)
    (cache : List (String × String)) (urnPath : String) (aemHost : Option String)
    (sig : String)
    (hu : urnPath ≠ "") (hh : aemHost.getD "" ≠ "") (hf : cfg.assetField ≠ "")
    (hmiss : (cache.lookup ((aemHost.getD "") ++ "|" ++ urnPath ++ "|" ++
        cfg.assetField ++ "|" ++ sig)).getD "" = "") :
    resolvePersisted cfg cache urnPath aemHost sig (.ok (.jobj []))
      = .inl ("", cache, [Effect.fetchComponent]) := by
  have h1 : (urnPath != "") = true := bne_iff_ne.mpr hu
  have h2 : ((aemHost.getD "") != "") = true := bne_iff_ne.mpr hh
  have hfetch : fetchComponentProp (aemHost.getD "") urnPath cfg.assetField
      (.ok (.jobj [])) = (.ok "", [Effect.fetchComponent]) := by
    simp [fetchComponentProp, hh, hu, hf, getProp]
  have hb0 : basename "" = "" := rfl
  by_cases hs : sig = ""
  · simp only [resolvePersisted, h1, h2, Bool.and_self, Bool.true_and, if_true, hs,
      bne_self_eq_false, Bool.false_eq_true, if_false, hfetch, hb0, Bool.and_false,
      Bool.false_and]
  · have h3 : (sig != "") = true := bne_iff_ne.mpr hs
    simp only [resolvePersisted, h1, h2, h3, Bool.and_self, Bool.true_and, if_true,
      hmiss, bne_self_eq_false, Bool.false_eq_true, if_false, hfetch, hb0,
      Bool.and_false, Bool.false_and]

/-- **C2 is false as stated.**  The claim asserts that a cycle whose
persisted fetch disagrees by filename with the visible asset signature
"performs no field write".  In this scenario the signature's filename is
`new-file.jpg` while the persisted fetch returns `/content/dam/old-file.jpg`
(filename `old-file.jpg`): the persisted value is indeed discarded and
nothing is cached, but resolution falls back to the raw editor-state value,
extracts the asset URN `urn:aaid:aem:12ab34cd` from the delivery URL as the
resolved reference, and the cycle proceeds to apply — here writing `""`
(the delivery origin is empty, so the metadata lookup degrades to the empty
value, which differs from the currently shown `"Old Title"`). -/
theorem c2_counterexample :
    basename (normalizeAssetSignature (jsTrim exStaleCtx.assetRawValue))
      = "new-file.jpg" ∧
    (fetchComponentProp "https://author.example.com" exStaleCtx.urnPath "image"
        exStaleCycle.persistedOracle).1 = .ok "/content/dam/old-file.jpg" ∧
    basename "/content/dam/old-file.jpg" = "old-file.jpg" ∧
    writesOf (runOnce {} exStaleState exStaleCycle).effects = [""] ∧
    (runOnce {} exStaleState exStaleCycle).state.persistedCache = [] ∧
    (runOnce {} exStaleState exStaleCycle).resolvedRef = "urn:aaid:aem:12ab34cd" :=
  ⟨rfl, rfl, rfl, rfl, rfl, rfl⟩

/-- **C2 amended.**  In any evaluation cycle where the persisted component
fetch returns a value whose filename (last path segment, query stripped)
differs from the filename of the currently visible asset signature, the
fetched persisted value is discarded as not yet converged: no value is
cached under that signature's cache key (the cache is unchanged), and the
cycle's entire outcome is identical to the outcome had the persisted fetch
returned the empty value — in particular the fetched value is not treated
as the resolved reference.  (Resolution then falls back to the raw
editor-state value, which may itself still yield a reference and a write,
as the counterexample shows.) -/
theorem c2_amended (cfg : FieldConfig) (s : EngineState) (c : ResolvedContext)
    (reason : String) (now : Nat) (j : JVal) (p : String)
    (damO delO : Except String JVal)
    (hcool : s.cooldownUntil = 0)
    (hu : c.urnPath ≠ "") (hh : c.aemHost.getD "" ≠ "")
    (hmiss : (s.persistedCache.lookup ((c.aemHost.getD "") ++ "|" ++ c.urnPath ++
        "|" ++ cfg.assetField ++ "|" ++
        normalizeAssetSignature (jsTrim c.assetRawValue))).getD "" = "")
    (hp : fetchComponentProp (c.aemHost.getD "") c.urnPath cfg.assetField (.ok j)
        = (.ok p, [Effect.fetchComponent]))
    (hsig : basename (normalizeAssetSignature (jsTrim c.assetRawValue)) ≠ "")
    (hpn : basename p ≠ "")
    (hdiff : basename (normalizeAssetSignature (jsTrim c.assetRawValue))
        ≠ basename p) :
    runOnce cfg s ⟨reason, now, some c, .ok j, damO, delO⟩
      = runOnce cfg s ⟨reason, now, some c, .ok (.jobj []), damO, delO⟩ ∧
    (runOnce cfg s ⟨reason, now, some c, .ok j, damO, delO⟩).state.persistedCache
      = s.persistedCache := by
  have hf : cfg.assetField ≠ "" := by
    intro h
    rw [h] at hp
    simp [fetchComponentProp] at hp
  have hL := resolvePersisted_stale_discard cfg s.persistedCache c.urnPath c.aemHost
    (normalizeAssetSignature (jsTrim c.assetRawValue)) j p hu hh hmiss hp hsig hpn hdiff
  have hR := resolvePersisted_empty_fetch cfg s.persistedCache c.urnPath c.aemHost
    (normalizeAssetSignature (jsTrim c.assetRawValue)) hu hh hf hmiss
  constructor
  · simp only [runOnce, hcool, bne_self_eq_false, Bool.false_and, Bool.false_eq_true,
      if_false, hL, hR]
  · simp only [runOnce, hcool, bne_self_eq_false, Bool.false_and, Bool.false_eq_true,
      if_false, hL, engineCycle_persistedCache]

/-- Witness for C2 (amended): the stale scenario's cycle outcome is
literally equal to the outcome with an empty persisted read. -/
theorem c2_amended_witness :
    runOnce {} exStaleState
        ⟨"ueEvent:aue:content-patch", 0, some exStaleCtx,
          .ok (.jobj [("image", .jstr "/content/dam/old-file.jpg")]),
          .ok (.jobj []), .ok (.jobj [])⟩
      = runOnce {} exStaleState
        ⟨"ueEvent:aue:content-patch", 0, some exStaleCtx,
          .ok (.jobj []), .ok (.jobj []), .ok (.jobj [])⟩ :=
  (c2_amended {} exStaleState exStaleCtx "ueEvent:aue:content-patch" 0
    (.jobj [("image", .jstr "/content/dam/old-file.jpg")])
    "/content/dam/old-file.jpg" (.ok (.jobj [])) (.ok (.jobj []))
    rfl (by decide) (by decide) rfl rfl (by decide) (by decide) (by decide)).1

/-! ## Claim C8 — host base-URL resolution -/

/-- **C8 is false as stated.**  The claim says the mapping's values are
searched "for a value matching either `<scheme>:https://...` or a bare
`https://...` URL, with first match winning".  The source makes two passes:
all values are searched for a scheme-prefixed match first, and bare URLs are
only considered when no scheme-prefixed value exists anywhere.  On a mapping
whose first value is a bare URL and whose second is scheme-prefixed, the
code returns the later scheme-prefixed value's suffix, not the first
matching value. -/
theorem c8_counterexample :
    pickAemConnection exConnections = some "https://author.example" ∧
    pickAemConnectionClaimed exConnections = some "https://bare.example" ∧
    pickAemConnection exConnections ≠ pickAemConnectionClaimed exConnections :=
  ⟨rfl, rfl, by decide⟩

/-- **C8 amended.**  Host base-URL resolution searches the preprocessed
connection values in two passes: if any value matches the scheme-prefixed
form, the first such value wins and its suffix after the first colon is
returned — regardless of bare URLs occurring earlier; otherwise the first
bare http(s) URL is returned; and the result is `null` exactly when no
value matches either form. -/
theorem c8_amended (l : List (String × String)) :
    (pickAemConnection l = none ↔
      ∀ v ∈ connectionValues l,
        matchesSchemePrefixed v = false ∧ startsWithHttpUrl v = false) ∧
    (∀ v, (connectionValues l).find? matchesSchemePrefixed = some v →
      pickAemConnection l = some (sliceAfterFirstColon v)) ∧
    ((connectionValues l).find? matchesSchemePrefixed = none →
      pickAemConnection l = (connectionValues l).find? startsWithHttpUrl) := by
  refine ⟨?_, ?_, ?_⟩
  · cases h1 : (connectionValues l).find? matchesSchemePrefixed with
    | some v =>
        simp only [pickAemConnection, h1]
        refine iff_of_false (by simp) ?_
        intro hall
        have hv : matchesSchemePrefixed v = true := List.find?_some h1
        have hm : v ∈ connectionValues l := List.mem_of_find?_eq_some h1
        rw [(hall v hm).1] at hv
        exact Bool.false_ne_true hv
    | none =>
        cases h2 : (connectionValues l).find? startsWithHttpUrl with
        | some u =>
            simp only [pickAemConnection, h1, h2]
            refine iff_of_false (by simp) ?_
            intro hall
            have hu' : startsWithHttpUrl u = true := List.find?_some h2
            have hm : u ∈ connectionValues l := List.mem_of_find?_eq_some h2
            rw [(hall u hm).2] at hu'
            exact Bool.false_ne_true hu'
        | none =>
            simp only [pickAemConnection, h1, h2]
            refine iff_of_true trivial ?_
            intro v hm
            constructor
            · exact Bool.eq_false_iff.mpr (List.find?_eq_none.mp h1 v hm)
            · exact Bool.eq_false_iff.mpr (List.find?_eq_none.mp h2 v hm)
  · intro v h1
    simp [pickAemConnection, h1]
  · intro h1
    cases h2 : (connectionValues l).find? startsWithHttpUrl <;>
      simp [pickAemConnection, h1, h2]

/-- Witness for C8 (amended): on the example mapping the first
scheme-prefixed value is `aem:https://author.example`, and the resolution
returns its suffix after the first colon. -/
theorem c8_amended_witness :
    (connectionValues exConnections).find? matchesSchemePrefixed
      = some "aem:https://author.example" ∧
    pickAemConnection exConnections
      = some (sliceAfterFirstColon "aem:https://author.example") :=
  ⟨rfl, (c8_amended exConnections).2.1 "aem:https://author.example" rfl⟩

end UEMeta
